import Mathlib

/-!
Shallow embedding of the ExpressLRS-Configurator build pipeline:
`FirmwareService.buildFlashFirmware` (backend service), the UI-side
`validateFirmwareVersionData`, and `DeviceService.loadDevices`.
External collaborators (Platformio toolchain, git downloader, firmware
builder, pubsub) are abstracted as an environment record of fallible
operations; a `Trace` records the observable effects (progress events,
log lines, git lookups, checkout/compile/flash invocations).
-/

namespace ELRS

/-- `BuildJobType` enum from the source. -/
inductive BuildJobType
  | Build
  | BuildAndFlash
deriving DecidableEq, Repr

/-- `UserDefinesMode` enum from the source. -/
inductive UserDefinesMode
  | Manual
  | UserInterface
deriving DecidableEq, Repr

/-- `FirmwareSource` enum: the five variants used across the code base. -/
inductive FirmwareSource
  | Local
  | GitCommit
  | GitBranch
  | GitTag
  | GitPullRequest
deriving DecidableEq, Repr

/-- `BuildFirmwareErrorType` enum from the source. -/
inductive BuildFirmwareErrorType
  | GenericError
  | PythonDependencyError
  | PlatformioDependencyError
  | GitDependencyError
  | BuildError
  | FlashError
deriving DecidableEq, Repr

/-- `BuildFirmwareStep` enum (`FirmwareBuildStep`) from the source. -/
inductive BuildFirmwareStep
  | VERIFYING_BUILD_SYSTEM
  | DOWNLOADING_FIRMWARE
  | BUILDING_USER_DEFINES
  | BUILDING_FIRMWARE
  | FLASHING_FIRMWARE
deriving DecidableEq, Repr

/-- `BuildFlashFirmwareResult(success, message?, errorType?, firmwareBinPath?)`. -/
structure BuildFlashFirmwareResult where
  success : Bool
  message : Option String := none
  errorType : Option BuildFirmwareErrorType := none
  firmwareBinPath : Option String := none
deriving DecidableEq, Repr

/-- `UserDefine`: the fields `buildFlashFirmware` reads (key, enabled). -/
structure UserDefine where
  key : String
  value : Option String := none
  enabled : Bool
deriving DecidableEq, Repr

/-- `FirmwareVersionData` as used by the backend service. -/
structure FirmwareVersionData where
  source : FirmwareSource
  gitTag : String := ""
  gitBranch : String := ""
  gitCommit : String := ""
  localPath : String := ""
deriving DecidableEq, Repr

/-- `BuildFlashFirmwareParams` from the source. -/
structure BuildFlashFirmwareParams where
  type : BuildJobType
  firmware : FirmwareVersionData
  target : String
  userDefinesMode : UserDefinesMode
  userDefines : List UserDefine := []
  userDefinesTxt : String := ""
deriving DecidableEq, Repr

/-- `GitRepo` from the source. -/
structure GitRepo where
  url : String
  cloneUrl : String := ""
  owner : String := ""
  repositoryName : String := ""
deriving DecidableEq, Repr

/-- `PullRequest`: the field the validator reads. -/
structure PullRequest where
  headCommitHash : String
  number : Nat := 0
deriving DecidableEq, Repr

/-- `FirmwareVersionDataInput` (UI-side): source plus the per-variant fields. -/
structure FirmwareVersionDataInput where
  source : FirmwareSource
  gitTag : String := ""
  gitBranch : String := ""
  gitCommit : String := ""
  localPath : String := ""
  gitPullRequest : Option PullRequest := none
deriving DecidableEq, Repr

/-- `validateFirmwareVersionData` from `ConfiguratorView/index.tsx`:
a switch on the source variant that pushes one descriptive error when the
selected variant's required field is empty (JS falsy-or-zero-length check). -/
def validateFirmwareVersionData (data : FirmwareVersionDataInput) : List String :=
  match data.source with
  | .Local =>
      if !(data.localPath ≠ "" && data.localPath.length > 0) then
        ["Local path is empty"]
      else []
  | .GitCommit =>
      if !(data.gitCommit ≠ "" && data.gitCommit.length > 0) then
        ["Git commit hash is empty"]
      else []
  | .GitBranch =>
      if !(data.gitBranch ≠ "" && data.gitBranch.length > 0) then
        ["Git branch is not selected"]
      else []
  | .GitTag =>
      if !(data.gitTag ≠ "" && data.gitTag.length > 0) then
        ["Firmware release is not selected"]
      else []
  | .GitPullRequest =>
      match data.gitPullRequest with
      | none => ["Firmware Pull Request is not selected"]
      | some pr =>
          if !(pr.headCommitHash.length > 0) then
            ["Firmware Pull Request is not selected"]
          else []

/-- The content of the selected variant's required field: what the validator
is allowed to depend on besides the source tag itself. -/
def selectedSourceField (data : FirmwareVersionDataInput) : Option String :=
  match data.source with
  | .Local => some data.localPath
  | .GitCommit => some data.gitCommit
  | .GitBranch => some data.gitBranch
  | .GitTag => some data.gitTag
  | .GitPullRequest => data.gitPullRequest.map (fun pr => pr.headCommitHash)

/-- The selected variant's required field is empty (absent pull request counts
as empty). -/
def selectedSourceFieldEmpty (data : FirmwareVersionDataInput) : Bool :=
  match selectedSourceField data with
  | none => true
  | some s => s = ""

/-- `{success, stdout, stderr}` contract of each toolchain-backend operation. -/
structure CommandResult where
  success : Bool
  stdout : String := ""
  stderr : String := ""
deriving DecidableEq, Repr

/-- `{compatible, incompatibleKeys}` returned by the define-compatibility check. -/
structure CompatCheckResult where
  compatible : Bool
  incompatibleKeys : List String := []
deriving DecidableEq, Repr

/-- Modelled from the spec: the Single-Flight Guard (`Mutex` in
`library/Mutex`, not under src/): a binary lock with `isLocked`, a
non-blocking `tryLock`, and `unlock`. -/
structure Mutex where
  locked : Bool
deriving DecidableEq, Repr

def Mutex.isLocked (m : Mutex) : Bool := m.locked

def Mutex.tryLock (_ : Mutex) : Mutex := { locked := true }

def Mutex.unlock (_ : Mutex) : Mutex := { locked := false }

/-- The external collaborators of `FirmwareService.buildFlashFirmware`;
each awaited operation may reject (`Except.error` models a thrown
exception) or resolve. -/
structure FirmwareServiceEnv where
  checkPython : Except String CommandResult
  checkCore : Except String CommandResult
  installPlatformio : Except String CommandResult
  findGit : Except String String
  checkoutTag : String → String → Except String String
  checkCompat : String → List String → Except String CompatCheckResult
  buildUserDefinesTxt : List UserDefine → String
  getPlatformioState : Except String String
  compile : String → String → String → Except String CommandResult
  getFirmwareBinPath : String → String → String
  flash : String → String → Except String CommandResult

/-- Observable effects of one pipeline run: progress events published
(steps, all of type Info in this code path), log lines published,
git-executable lookups performed, and the checkout / compile / flash
invocations with their arguments. -/
structure Trace where
  progress : List BuildFirmwareStep := []
  logs : List String := []
  gitLookups : Nat := 0
  checkoutCalls : List (String × String) := []
  compileCalls : List (String × String × String) := []
  flashCalls : List (String × String) := []
deriving DecidableEq, Repr

/-- Compile step onward: publish `BUILDING_FIRMWARE`, run the builder's
`build`; on failure return a `BuildError` result with the captured stderr;
on success either report the firmware binary path (`Build` jobs) or
publish `FLASHING_FIRMWARE` and run `flash`. -/
def stageCompile (env : FirmwareServiceEnv) (params : BuildFlashFirmwareParams)
    (firmwarePath : String) (userDefines : String) (t : Trace) :
    Except String BuildFlashFirmwareResult × Trace :=
  let t := { t with progress := t.progress ++ [.BUILDING_FIRMWARE],
                    compileCalls := t.compileCalls ++ [(params.target, userDefines, firmwarePath)] }
  match env.compile params.target userDefines firmwarePath with
  | .error e => (.error e, t)
  | .ok compileResult =>
    if !compileResult.success then
      (.ok { success := false, message := some compileResult.stderr,
             errorType := some .BuildError }, t)
    else if params.type = BuildJobType.Build then
      let firmwareBinPath := env.getFirmwareBinPath params.target firmwarePath
      (.ok { success := true, firmwareBinPath := some firmwareBinPath }, t)
    else
      let t := { t with progress := t.progress ++ [.FLASHING_FIRMWARE],
                        flashCalls := t.flashCalls ++ [(params.target, firmwarePath)] }
      match env.flash params.target firmwarePath with
      | .error e => (.error e, t)
      | .ok flashResult =>
        if !flashResult.success then
          (.ok { success := false, message := some flashResult.stderr,
                 errorType := some .FlashError }, t)
        else
          (.ok { success := true }, t)

/-- User-defines step: publish `BUILDING_USER_DEFINES`; in `UserInterface`
mode check define compatibility of the enabled keys (incompatibility is a
`BuildError`); materialize the defines text per mode; fetch the
platformio state; then compile. -/
def stageDefines (env : FirmwareServiceEnv) (params : BuildFlashFirmwareParams)
    (firmwarePath : String) (t : Trace) :
    Except String BuildFlashFirmwareResult × Trace :=
  let t := { t with progress := t.progress ++ [.BUILDING_USER_DEFINES] }
  match params.userDefinesMode with
  | .UserInterface =>
    match env.checkCompat firmwarePath
        ((params.userDefines.filter (fun u => u.enabled)).map (fun u => u.key)) with
    | .error e => (.error e, t)
    | .ok compatCheck =>
      if !compatCheck.compatible then
        (.ok { success := false,
               message := some ("Downloaded firmware is not compatible with the following user defines: "
                 ++ String.intercalate "," compatCheck.incompatibleKeys),
               errorType := some .BuildError }, t)
      else
        let userDefines := env.buildUserDefinesTxt params.userDefines
        match env.getPlatformioState with
        | .error e => (.error e, t)
        | .ok _ => stageCompile env params firmwarePath userDefines t
  | .Manual =>
    let userDefines := params.userDefinesTxt
    match env.getPlatformioState with
    | .error e => (.error e, t)
    | .ok _ => stageCompile env params firmwarePath userDefines t

/-- Source-resolution switch: `GitTag` checks out `gitTag`, `GitBranch`
checks out `gitBranch`, `GitCommit` checks out `gitTag` (as the source
does), `Local` uses `localPath` as-is, and any other variant throws
`unsupported firmware source`. -/
def stageSource (env : FirmwareServiceEnv) (params : BuildFlashFirmwareParams)
    (gitRepo : GitRepo) (t : Trace) :
    Except String BuildFlashFirmwareResult × Trace :=
  match params.firmware.source with
  | .GitTag =>
    let t := { t with checkoutCalls := t.checkoutCalls ++ [(gitRepo.url, params.firmware.gitTag)] }
    match env.checkoutTag gitRepo.url params.firmware.gitTag with
    | .error e => (.error e, t)
    | .ok path => stageDefines env params path t
  | .GitBranch =>
    let t := { t with checkoutCalls := t.checkoutCalls ++ [(gitRepo.url, params.firmware.gitBranch)] }
    match env.checkoutTag gitRepo.url params.firmware.gitBranch with
    | .error e => (.error e, t)
    | .ok path => stageDefines env params path t
  | .GitCommit =>
    let t := { t with checkoutCalls := t.checkoutCalls ++ [(gitRepo.url, params.firmware.gitTag)] }
    match env.checkoutTag gitRepo.url params.firmware.gitTag with
    | .error e => (.error e, t)
    | .ok path => stageDefines env params path t
  | .Local =>
    stageDefines env params params.firmware.localPath t
  | .GitPullRequest =>
    (.error "unsupported firmware source: GitPullRequest", t)

/-- Git lookup and download step: locate the git executable (an inner
try/catch converts its failure into a `GitDependencyError` result rather
than a throw), publish `DOWNLOADING_FIRMWARE`, then dispatch on the
source variant. -/
def stageGit (env : FirmwareServiceEnv) (params : BuildFlashFirmwareParams)
    (gitRepo : GitRepo) (t : Trace) :
    Except String BuildFlashFirmwareResult × Trace :=
  let t := { t with gitLookups := t.gitLookups + 1 }
  match env.findGit with
  | .error e =>
    (.ok { success := false, message := some e,
           errorType := some .GitDependencyError }, t)
  | .ok _gitPath =>
    let t := { t with progress := t.progress ++ [.DOWNLOADING_FIRMWARE] }
    stageSource env params gitRepo t

/-- Body of the `try` block of `buildFlashFirmware`: publish
`VERIFYING_BUILD_SYSTEM`, check the python runtime
(`PythonDependencyError` on failure), check the platformio core and
install it if absent (`PlatformioDependencyError` if the install fails),
then continue with the git stage. An `Except.error` outcome models an
exception thrown inside the `try` block. -/
def runTry (env : FirmwareServiceEnv) (params : BuildFlashFirmwareParams)
    (gitRepo : GitRepo) : Except String BuildFlashFirmwareResult × Trace :=
  let t : Trace := { progress := [.VERIFYING_BUILD_SYSTEM] }
  match env.checkPython with
  | .error e => (.error e, t)
  | .ok pythonCheck =>
    if !pythonCheck.success then
      (.ok { success := false,
             message := some ("Python dependency error: " ++ pythonCheck.stderr
               ++ " " ++ pythonCheck.stdout),
             errorType := some .PythonDependencyError }, t)
    else
      match env.checkCore with
      | .error e => (.error e, t)
      | .ok coreCheck =>
        if !coreCheck.success then
          let t := { t with logs := t.logs ++
            ["Failed to find Platformio on your computer. Trying to install it automatically..."] }
          match env.installPlatformio with
          | .error e => (.error e, t)
          | .ok installResult =>
            if !installResult.success then
              (.ok { success := false,
                     message := some ("platformio error: " ++ installResult.stderr
                       ++ " " ++ installResult.stdout),
                     errorType := some .PlatformioDependencyError }, t)
            else
              stageGit env params gitRepo t
        else
          stageGit env params gitRepo t

/-- Output of one `buildFlashFirmware` call: the returned result, the
mutex state after the call, and the trace of observable effects. -/
structure BuildOutput where
  result : BuildFlashFirmwareResult
  mutex : Mutex
  trace : Trace
deriving DecidableEq, Repr

/-- `FirmwareService.buildFlashFirmware`: if the mutex is locked, return a
busy `GenericError` result at once; otherwise take the lock, run the
`try` body, convert a thrown exception into a `GenericError` result
(`catch`), and unlock in `finally` on both completions. -/
def buildFlashFirmware (env : FirmwareServiceEnv) (params : BuildFlashFirmwareParams)
    (gitRepo : GitRepo) (m : Mutex) : BuildOutput :=
  if m.isLocked then
    { result := { success := false,
                  message := some "there is another build/flash request in progress...",
                  errorType := some .GenericError },
      mutex := m, trace := {} }
  else
    let m := m.tryLock
    match runTry env params gitRepo with
    | (.ok r, t) => { result := r, mutex := m.unlock, trace := t }
    | (.error e, t) =>
      { result := { success := false, message := some ("Error: " ++ e),
                    errorType := some .GenericError },
        mutex := m.unlock, trace := t }

/-- Modelled from the spec: `FlashingMethod` enum
(`flashingMethod ∈ {UART, BetaflightPassthrough, WIFI, …}`); the enum file
itself is not under src/. -/
inductive FlashingMethod
  | UART
  | BetaflightPassthrough
  | WIFI
deriving DecidableEq, Repr

/-- Modelled from the spec: a supported user-define key (the `UserDefineKey`
enum is not under src/; only the key's identity matters here). -/
structure UserDefineKey where
  key : String
deriving DecidableEq, Repr

/-- Modelled from the spec: a device type (the `DeviceType` enum is not
under src/; only its identity matters here). -/
structure DeviceType where
  kind : String
deriving DecidableEq, Repr

/-- Raw catalog target entry as found in `devices.json` (strings, possibly
empty when the JSON property is missing). -/
structure RawTarget where
  name : String := ""
  flashingMethod : String := ""
deriving DecidableEq, Repr

/-- Raw catalog device entry as found in `devices.json`. -/
structure RawDevice where
  name : String := ""
  category : String := ""
  targets : List RawTarget := []
  userDefines : List String := []
  wikiUrl : String := ""
  deviceType : String := ""
deriving DecidableEq, Repr

/-- Parsed `Target` as built by `DeviceService.loadDevices`. -/
structure Target where
  name : String
  flashingMethod : FlashingMethod
deriving DecidableEq, Repr

/-- Parsed `Device` as built by `DeviceService.loadDevices`. -/
structure Device where
  id : String
  name : String
  category : String
  targets : List Target
  userDefines : List UserDefineKey
  wikiUrl : String
  deviceType : DeviceType
deriving DecidableEq, Repr

/-- The enum lookup tables `loadDevices` indexes with raw strings
(`FlashingMethod[...]`, `UserDefineKey[...]`, `DeviceType[...]`): `none`
models a failed (undefined / falsy) lookup. -/
structure DeviceEnumTables where
  flashingMethod : String → Option FlashingMethod
  userDefineKey : String → Option UserDefineKey
  deviceType : String → Option DeviceType

/-- Target mapping inside `loadDevices`: a missing name or an unknown
flashing method throws. -/
def parseTarget (tables : DeviceEnumTables) (item : RawTarget) : Except String Target :=
  if item.name = "" then
    .error "target must have a name property"
  else
    match tables.flashingMethod item.flashingMethod with
    | none =>
      .error ("error parsing target \"" ++ item.name ++ "\": \""
        ++ item.flashingMethod ++ "\" is not a valid flashing method")
    | some fm => .ok { name := item.name, flashingMethod := fm }

/-- `value.targets.map(...)` with a throwing callback: short-circuits on
the first error. -/
def parseTargets (tables : DeviceEnumTables) : List RawTarget → Except String (List Target)
  | [] => .ok []
  | item :: rest =>
    match parseTarget tables item with
    | .error e => .error e
    | .ok target =>
      match parseTargets tables rest with
      | .error e => .error e
      | .ok targets => .ok (target :: targets)

/-- `value.userDefines.map(...)`: unknown keys throw. -/
def parseUserDefineKeys (tables : DeviceEnumTables) : List String → Except String (List UserDefineKey)
  | [] => .ok []
  | item :: rest =>
    match tables.userDefineKey item with
    | none => .error ("\"" ++ item ++ "\" is not a valid User Define")
    | some k =>
      match parseUserDefineKeys tables rest with
      | .error e => .error e
      | .ok ks => .ok (k :: ks)

/-- Body of the per-device `try` block of `loadDevices`: required
properties, target list, user-define list, and device type are all
validated; any failure throws. -/
def parseDevice (tables : DeviceEnumTables) (value : RawDevice) : Except String Device :=
  if value.name = "" then
    .error "all devices must have a name property!"
  else if value.category = "" then
    .error "category property is required!"
  else if value.targets.length = 0 then
    .error "devices must have a list of targets defined!"
  else if value.userDefines.length = 0 then
    .error "devices must have a list of supported user defines!"
  else
    match parseTargets tables value.targets with
    | .error e => .error e
    | .ok targets =>
      match parseUserDefineKeys tables value.userDefines with
      | .error e => .error e
      | .ok userDefines =>
        match tables.deviceType value.deviceType with
        | none => .error ("\"" ++ value.deviceType ++ "\" is not a valid device type")
        | some deviceType =>
          .ok { id := value.name, name := value.name, category := value.category,
                targets := targets, userDefines := userDefines,
                wikiUrl := value.wikiUrl, deviceType := deviceType }

/-- The per-device `catch` of `loadDevices` wraps the error message and
rethrows. -/
def parseDeviceEntry (tables : DeviceEnumTables) (value : RawDevice) : Except String Device :=
  match parseDevice tables value with
  | .error e =>
    .error ("Issue encountered while parsing device \"" ++ value.name
      ++ "\" in the device configuration file devices.json: " ++ e)
  | .ok d => .ok d

/-- `DeviceService.loadDevices`: `DeviceJSON.devices.map(...)` where every
entry either parses or rethrows — the whole catalog loads or the whole
load throws. -/
def loadDevices (tables : DeviceEnumTables) : List RawDevice → Except String (List Device)
  | [] => .ok []
  | value :: rest =>
    match parseDeviceEntry tables value with
    | .error e => .error e
    | .ok d =>
      match loadDevices tables rest with
      | .error e => .error e
      | .ok ds => .ok (d :: ds)

/-- An all-success toolchain backend used for concrete evaluations. -/
def happyEnv : FirmwareServiceEnv where
  checkPython := .ok { success := true }
  checkCore := .ok { success := true }
  installPlatformio := .ok { success := true }
  findGit := .ok "/usr/bin/git"
  checkoutTag := fun _ ref => .ok ("/firmwares/" ++ ref)
  checkCompat := fun _ _ => .ok { compatible := true }
  buildUserDefinesTxt := fun ds => String.intercalate "\n" (ds.map (fun d => d.key))
  getPlatformioState := .ok "{}"
  compile := fun _ _ _ => .ok { success := true }
  getFirmwareBinPath := fun _ p => p ++ "/.pio/firmware.bin"
  flash := fun _ _ => .ok { success := true }

/-- A concrete repository descriptor. -/
def repoA : GitRepo := { url := "https://example.com/repo.git" }

/-- A concrete `Build` request from a git tag. -/
def tagBuildParams : BuildFlashFirmwareParams :=
  { type := .Build,
    firmware := { source := .GitTag, gitTag := "v1.0" },
    target := "TARGET_A",
    userDefinesMode := .Manual,
    userDefinesTxt := "DEF" }

/-- A concrete `Build` request from a git commit whose `gitCommit` and
`gitTag` fields differ. -/
def commitBuildParams : BuildFlashFirmwareParams :=
  { type := .Build,
    firmware := { source := .GitCommit, gitCommit := "abc123", gitTag := "v1.0" },
    target := "TARGET_A",
    userDefinesMode := .Manual,
    userDefinesTxt := "DEF" }

/-- A concrete `Build` request from a local source tree. -/
def localBuildParams : BuildFlashFirmwareParams :=
  { type := .Build,
    firmware := { source := .Local, localPath := "/fw" },
    target := "TARGET_A",
    userDefinesMode := .Manual,
    userDefinesTxt := "DEF" }

/-- A concrete `BuildAndFlash` request from a local source tree. -/
def localFlashParams : BuildFlashFirmwareParams :=
  { type := .BuildAndFlash,
    firmware := { source := .Local, localPath := "/fw" },
    target := "TARGET_A",
    userDefinesMode := .Manual,
    userDefinesTxt := "DEF" }

/-- A concrete request whose source variant hits the throwing default arm. -/
def pullRequestParams : BuildFlashFirmwareParams :=
  { type := .Build,
    firmware := { source := .GitPullRequest },
    target := "TARGET_A",
    userDefinesMode := .Manual,
    userDefinesTxt := "DEF" }

/-- A backend whose compile step fails with a linker diagnostic. -/
def compileFailEnv : FirmwareServiceEnv :=
  { happyEnv with compile := fun _ _ _ => .ok { success := false, stderr := "undefined reference" } }

/-- Concrete enum tables for evaluating `loadDevices`. -/
def tablesA : DeviceEnumTables where
  flashingMethod := fun s =>
    if s = "UART" then some .UART
    else if s = "WIFI" then some .WIFI
    else if s = "BetaflightPassthrough" then some .BetaflightPassthrough
    else none
  userDefineKey := fun s => if s = "" then none else some { key := s }
  deviceType := fun s => if s = "" then none else some { kind := s }

/-- A well-formed raw catalog entry. -/
def rawDeviceA : RawDevice :=
  { name := "DeviceA", category := "CatA",
    targets := [{ name := "TARGET_A", flashingMethod := "UART" }],
    userDefines := ["BINDING_PHRASE"], deviceType := "TX" }

/-- The parsed device `loadDevices` produces from `rawDeviceA`. -/
def deviceA : Device :=
  { id := "DeviceA", name := "DeviceA", category := "CatA",
    targets := [{ name := "TARGET_A", flashingMethod := .UART }],
    userDefines := [{ key := "BINDING_PHRASE" }],
    wikiUrl := "", deviceType := { kind := "TX" } }

theorem string_length_eq_zero_iff (s : String) : s.length = 0 ↔ s = "" := by
  constructor
  · intro h
    cases s with
    | mk data =>
      cases data with
      | nil => rfl
      | cons a l => simp [String.length] at h
  · intro h
    subst h
    rfl

/-- The single error message pushed for each source variant. -/
def sourceEmptyError : FirmwareSource → String
  | .Local => "Local path is empty"
  | .GitCommit => "Git commit hash is empty"
  | .GitBranch => "Git branch is not selected"
  | .GitTag => "Firmware release is not selected"
  | .GitPullRequest => "Firmware Pull Request is not selected"

theorem validate_closed_form (d : FirmwareVersionDataInput) :
    validateFirmwareVersionData d =
      if selectedSourceFieldEmpty d then [sourceEmptyError d.source] else [] := by
  unfold validateFirmwareVersionData selectedSourceFieldEmpty selectedSourceField sourceEmptyError
  have hlen : ∀ s : String, ¬s = "" → 0 < s.length := by
    intro s hne
    exact Nat.pos_of_ne_zero (fun hz => hne ((string_length_eq_zero_iff s).mp hz))
  rcases hsrc : d.source with _ | _ | _ | _ | _
  · by_cases h : d.localPath = ""
    · simp [h]
    · simp [h, hlen _ h]
  · by_cases h : d.gitCommit = ""
    · simp [h]
    · simp [h, hlen _ h]
  · by_cases h : d.gitBranch = ""
    · simp [h]
    · simp [h, hlen _ h]
  · by_cases h : d.gitTag = ""
    · simp [h]
    · simp [h, hlen _ h]
  · rcases hpr : d.gitPullRequest with _ | pr
    · simp
    · by_cases h : pr.headCommitHash = ""
      · simp [h]
      · simp [h, hlen _ h]

/-- C8: for the five known source variants the validator returns (it never
throws on them); its output depends only on the selected variant's
required field, and the error list is non-empty exactly when that field is
empty. -/
theorem validateFirmwareVersionData_spec (d d' : FirmwareVersionDataInput)
    (hsrc : d'.source = d.source)
    (hfield : selectedSourceField d' = selectedSourceField d) :
    validateFirmwareVersionData d' = validateFirmwareVersionData d ∧
    (validateFirmwareVersionData d ≠ [] ↔ selectedSourceFieldEmpty d = true) := by
  have hempty : selectedSourceFieldEmpty d' = selectedSourceFieldEmpty d := by
    unfold selectedSourceFieldEmpty
    rw [hfield]
  constructor
  · rw [validate_closed_form, validate_closed_form, hempty, hsrc]
  · rw [validate_closed_form]
    by_cases h : selectedSourceFieldEmpty d <;> simp [h]

/-- Witness for C8 at `source=GitBranch, gitBranch=""`. -/
theorem validateFirmwareVersionData_spec_witness :
    validateFirmwareVersionData { source := .GitBranch } =
        validateFirmwareVersionData { source := .GitBranch } ∧
    (validateFirmwareVersionData { source := .GitBranch } ≠ [] ↔
      selectedSourceFieldEmpty { source := .GitBranch } = true) :=
  validateFirmwareVersionData_spec { source := .GitBranch } { source := .GitBranch } rfl rfl

/-- Reduction of `buildFlashFirmware` on a free guard: take the lock, run
the body, translate the outcome, unlock. -/
theorem buildFlashFirmware_unlocked (env : FirmwareServiceEnv)
    (params : BuildFlashFirmwareParams) (gitRepo : GitRepo) :
    buildFlashFirmware env params gitRepo { locked := false } =
      match runTry env params gitRepo with
      | (.ok r, t) => { result := r, mutex := { locked := false }, trace := t }
      | (.error e, t) =>
        { result := { success := false, message := some ("Error: " ++ e),
                      errorType := some .GenericError },
          mutex := { locked := false }, trace := t } := by
  unfold buildFlashFirmware
  rcases hrun : runTry env params gitRepo with ⟨res, t⟩
  rcases res with e | r <;> rfl

/-- C1: a request accepted with the guard free always returns with the
guard released — on success, typed failure and thrown-exception paths
alike — so any subsequent call behaves as if starting from a free guard. -/
theorem guard_released_on_every_exit (env : FirmwareServiceEnv)
    (params : BuildFlashFirmwareParams) (gitRepo : GitRepo) :
    (buildFlashFirmware env params gitRepo { locked := false }).mutex.isLocked = false ∧
    ∀ env2 params2 gitRepo2,
      buildFlashFirmware env2 params2 gitRepo2
          (buildFlashFirmware env params gitRepo { locked := false }).mutex =
        buildFlashFirmware env2 params2 gitRepo2 { locked := false } := by
  have hm : (buildFlashFirmware env params gitRepo { locked := false }).mutex =
      { locked := false } := by
    unfold buildFlashFirmware
    rcases hrun : runTry env params gitRepo with ⟨res, t⟩
    rcases res with e | r <;> rfl
  exact ⟨by rw [hm]; rfl, fun env2 params2 gitRepo2 => by rw [hm]⟩

/-- C2: a request arriving while the guard is held returns at once with a
busy `GenericError` result, an empty effect trace (no progress event, no
toolchain call) and the guard left untouched. -/
theorem busy_request_rejected_immediately (env : FirmwareServiceEnv)
    (params : BuildFlashFirmwareParams) (gitRepo : GitRepo) :
    buildFlashFirmware env params gitRepo { locked := true } =
      { result := { success := false,
                    message := some "there is another build/flash request in progress...",
                    errorType := some .GenericError },
        mutex := { locked := true }, trace := {} } := rfl

/-- C3: on a `GitCommit` request with `gitCommit="abc123"` and
`gitTag="v1.0"`, the downloader is asked to check out `"v1.0"` — the
`gitTag` field, not the `gitCommit` field. -/
theorem gitcommit_source_checks_out_gittag :
    commitBuildParams.firmware.gitCommit = "abc123" ∧
    (buildFlashFirmware happyEnv commitBuildParams repoA { locked := false }).trace.checkoutCalls =
      [("https://example.com/repo.git", "v1.0")] := by
  exact ⟨rfl, rfl⟩

/-- C6: an exception thrown anywhere inside the pipeline body after guard
acquisition is caught and converted into exactly one `GenericError` result
carrying the exception description, with the guard released. -/
theorem exception_becomes_generic_error (env : FirmwareServiceEnv)
    (params : BuildFlashFirmwareParams) (gitRepo : GitRepo) (e : String) (t : Trace)
    (h : runTry env params gitRepo = (.error e, t)) :
    buildFlashFirmware env params gitRepo { locked := false } =
      { result := { success := false, message := some ("Error: " ++ e),
                    errorType := some .GenericError },
        mutex := { locked := false }, trace := t } := by
  unfold buildFlashFirmware
  rw [h]
  rfl

/-- Witness for C6: the throwing default arm for the unsupported
`GitPullRequest` source variant. -/
theorem exception_becomes_generic_error_witness :
    buildFlashFirmware happyEnv pullRequestParams repoA { locked := false } =
      { result := { success := false,
                    message := some ("Error: " ++ "unsupported firmware source: GitPullRequest"),
                    errorType := some .GenericError },
        mutex := { locked := false },
        trace := { progress := [.VERIFYING_BUILD_SYSTEM, .DOWNLOADING_FIRMWARE],
                   gitLookups := 1 } } :=
  exception_becomes_generic_error happyEnv pullRequestParams repoA
    "unsupported firmware source: GitPullRequest"
    { progress := [.VERIFYING_BUILD_SYSTEM, .DOWNLOADING_FIRMWARE], gitLookups := 1 } rfl

theorem stageCompile_calls (env : FirmwareServiceEnv) (params : BuildFlashFirmwareParams)
    (fp u : String) (t : Trace) :
    (stageCompile env params fp u t).2.compileCalls = t.compileCalls ++ [(params.target, u, fp)] ∧
    (stageCompile env params fp u t).2.checkoutCalls = t.checkoutCalls := by
  unfold stageCompile
  repeat' split
  all_goals exact ⟨rfl, rfl⟩

theorem stageCompile_compile_failed (env : FirmwareServiceEnv) (params : BuildFlashFirmwareParams)
    (fp u : String) (t : Trace) (cr : CommandResult)
    (hc : env.compile params.target u fp = .ok cr) (hf : cr.success = false) :
    stageCompile env params fp u t =
      (.ok { success := false, message := some cr.stderr, errorType := some .BuildError },
       { t with progress := t.progress ++ [.BUILDING_FIRMWARE],
                compileCalls := t.compileCalls ++ [(params.target, u, fp)] }) := by
  unfold stageCompile
  rw [hc]
  simp [hf]

theorem stageCompile_success (env : FirmwareServiceEnv) (params : BuildFlashFirmwareParams)
    (fp u : String) (t : Trace) (r : BuildFlashFirmwareResult) (tr : Trace)
    (h : stageCompile env params fp u t = (.ok r, tr)) (hs : r.success = true) :
    (params.type = BuildJobType.Build ∧
      r = { success := true, firmwareBinPath := some (env.getFirmwareBinPath params.target fp) } ∧
      tr.progress = t.progress ++ [.BUILDING_FIRMWARE] ∧
      tr.flashCalls = t.flashCalls) ∨
    (params.type = BuildJobType.BuildAndFlash ∧ r = { success := true } ∧
      tr.progress = t.progress ++ [.BUILDING_FIRMWARE, .FLASHING_FIRMWARE]) := by
  unfold stageCompile at h
  split at h
  · simp at h
  · split at h
    · simp only [Prod.mk.injEq, Except.ok.injEq] at h
      rw [← h.1] at hs
      simp at hs
    · split at h
      · rename_i hbuild
        simp only [Prod.mk.injEq, Except.ok.injEq] at h
        exact Or.inl ⟨hbuild, h.1.symm, by rw [← h.2], by rw [← h.2]⟩
      · rename_i hnotbuild
        split at h
        · simp at h
        · split at h
          · simp only [Prod.mk.injEq, Except.ok.injEq] at h
            rw [← h.1] at hs
            simp at hs
          · have hbt : params.type = BuildJobType.BuildAndFlash := by
              rcases htype : params.type
              · exact absurd htype hnotbuild
              · rfl
            simp only [Prod.mk.injEq, Except.ok.injEq] at h
            exact Or.inr ⟨hbt, h.1.symm, by rw [← h.2]; simp⟩

theorem runTry_success (env : FirmwareServiceEnv) (params : BuildFlashFirmwareParams)
    (gitRepo : GitRepo) (r : BuildFlashFirmwareResult) (t : Trace)
    (h : runTry env params gitRepo = (.ok r, t)) (hs : r.success = true) :
    ∃ fp u t0,
      t0.progress = [.VERIFYING_BUILD_SYSTEM, .DOWNLOADING_FIRMWARE, .BUILDING_USER_DEFINES] ∧
      t0.compileCalls = [] ∧ t0.flashCalls = [] ∧
      stageCompile env params fp u t0 = (.ok r, t) := by
  unfold runTry stageGit stageSource stageDefines at h
  repeat' split at h
  all_goals first
    | (exact ⟨_, _, _, rfl, rfl, rfl, h⟩)
    | (simp only [Prod.mk.injEq, Except.ok.injEq] at h; rw [← h.1] at hs; simp at hs)
    | (exact absurd h (by simp))

theorem runTry_compile (env : FirmwareServiceEnv) (params : BuildFlashFirmwareParams)
    (gitRepo : GitRepo) :
    (runTry env params gitRepo).2.compileCalls = [] ∨
    ∃ fp u t0, t0.compileCalls = [] ∧ t0.flashCalls = [] ∧
      runTry env params gitRepo = stageCompile env params fp u t0 := by
  unfold runTry stageGit stageSource stageDefines
  repeat' split
  all_goals first
    | (exact Or.inr ⟨_, _, _, rfl, rfl, rfl⟩)
    | (exact Or.inl rfl)

theorem stageDefines_calls (env : FirmwareServiceEnv) (params : BuildFlashFirmwareParams)
    (fp : String) (t : Trace) :
    (stageDefines env params fp t).2.checkoutCalls = t.checkoutCalls ∧
    ((stageDefines env params fp t).2.compileCalls = t.compileCalls ∨
     ∃ u, (stageDefines env params fp t).2.compileCalls = t.compileCalls ++ [(params.target, u, fp)]) := by
  unfold stageDefines
  repeat' split
  all_goals first
    | (exact ⟨rfl, Or.inl rfl⟩)
    | (exact ⟨(stageCompile_calls env params fp _ _).2, Or.inr ⟨_, (stageCompile_calls env params fp _ _).1⟩⟩)

theorem runTry_local (env : FirmwareServiceEnv) (params : BuildFlashFirmwareParams)
    (gitRepo : GitRepo) (h : params.firmware.source = FirmwareSource.Local) :
    (runTry env params gitRepo).2.checkoutCalls = [] ∧
    ∀ a b c, (a, b, c) ∈ (runTry env params gitRepo).2.compileCalls →
      c = params.firmware.localPath := by
  unfold runTry stageGit stageSource
  rw [h]
  dsimp only
  repeat' split
  all_goals first
    | (exact ⟨rfl, by intro a b c hm; simp at hm⟩)
    | (rcases stageDefines_calls env params params.firmware.localPath _ with ⟨hco, hcc⟩
       refine ⟨hco, ?_⟩
       rcases hcc with hcc | ⟨u, hcc⟩
       · intro a b c hm
         rw [hcc] at hm
         simp at hm
       · intro a b c hm
         rw [hcc] at hm
         simp at hm
         exact hm.2.2)

/-- C4: a run that returns success publishes exactly the four progress
steps in order for a `Build` job, and exactly those four followed by
`FLASHING_FIRMWARE` for a `BuildAndFlash` job — no duplicates, no
omissions. -/
theorem build_progress_steps (env : FirmwareServiceEnv) (params : BuildFlashFirmwareParams)
    (gitRepo : GitRepo)
    (h : (buildFlashFirmware env params gitRepo { locked := false }).result.success = true) :
    (buildFlashFirmware env params gitRepo { locked := false }).trace.progress =
      if params.type = BuildJobType.Build then
        [.VERIFYING_BUILD_SYSTEM, .DOWNLOADING_FIRMWARE, .BUILDING_USER_DEFINES,
         .BUILDING_FIRMWARE]
      else
        [.VERIFYING_BUILD_SYSTEM, .DOWNLOADING_FIRMWARE, .BUILDING_USER_DEFINES,
         .BUILDING_FIRMWARE, .FLASHING_FIRMWARE] := by
  rw [buildFlashFirmware_unlocked] at h ⊢
  rcases hrun : runTry env params gitRepo with ⟨res, t⟩
  rw [hrun] at h
  rcases res with e | r
  · exact absurd (show (false : Bool) = true from h) (by simp)
  · have hss : r.success = true := h
    obtain ⟨fp, u, t0, hprog, _, _, hsc⟩ := runTry_success env params gitRepo r t hrun hss
    rcases stageCompile_success env params fp u t0 r t hsc hss with ⟨hb, _, hp, _⟩ | ⟨hb, _, hp⟩
    · show t.progress = _
      simp [hb, hp, hprog]
    · show t.progress = _
      simp [hb, hp, hprog]

/-- Witness for C4: the all-success backend building from a git tag. -/
theorem build_progress_steps_witness :
    (buildFlashFirmware happyEnv tagBuildParams repoA { locked := false }).trace.progress =
      if tagBuildParams.type = BuildJobType.Build then
        [.VERIFYING_BUILD_SYSTEM, .DOWNLOADING_FIRMWARE, .BUILDING_USER_DEFINES,
         .BUILDING_FIRMWARE]
      else
        [.VERIFYING_BUILD_SYSTEM, .DOWNLOADING_FIRMWARE, .BUILDING_USER_DEFINES,
         .BUILDING_FIRMWARE, .FLASHING_FIRMWARE] :=
  build_progress_steps happyEnv tagBuildParams repoA rfl

/-- C10: a successful `BuildAndFlash` run returns the bare success result
(no message, no error type, no binary path); a binary path appears on a
successful result only for `Build` jobs. -/
theorem success_result_shape (env : FirmwareServiceEnv) (params : BuildFlashFirmwareParams)
    (gitRepo : GitRepo) :
    (params.type = BuildJobType.BuildAndFlash →
      (buildFlashFirmware env params gitRepo { locked := false }).result.success = true →
      (buildFlashFirmware env params gitRepo { locked := false }).result = { success := true }) ∧
    ((buildFlashFirmware env params gitRepo { locked := false }).result.success = true →
      (buildFlashFirmware env params gitRepo { locked := false }).result.firmwareBinPath ≠ none →
      params.type = BuildJobType.Build) := by
  rw [buildFlashFirmware_unlocked]
  rcases hrun : runTry env params gitRepo with ⟨res, t⟩
  rcases res with e | r
  · constructor
    · intro _ hs
      simp at hs
    · intro hs
      simp at hs
  · dsimp only
    constructor
    · intro hty hs
      obtain ⟨fp, u, t0, _, _, _, hsc⟩ := runTry_success env params gitRepo r t hrun hs
      rcases stageCompile_success env params fp u t0 r t hsc hs with ⟨hb, _, _, _⟩ | ⟨_, hr, _⟩
      · rw [hty] at hb
        cases hb
      · exact hr
    · intro hs hbin
      obtain ⟨fp, u, t0, _, _, _, hsc⟩ := runTry_success env params gitRepo r t hrun hs
      rcases stageCompile_success env params fp u t0 r t hsc hs with ⟨hb, _, _, _⟩ | ⟨_, hr, _⟩
      · exact hb
      · rw [hr] at hbin
        simp at hbin

/-- Witness for C10: the all-success backend on a `BuildAndFlash` job. -/
theorem success_result_shape_witness :
    (buildFlashFirmware happyEnv localFlashParams repoA { locked := false }).result =
      { success := true } :=
  (success_result_shape happyEnv localFlashParams repoA).1 rfl rfl

/-- C5: when the builder's compile operation resolves with
`success=false`, the run returns `success=false, errorType=BuildError`
with the captured stderr verbatim as the message, and flash is never
invoked. -/
theorem compile_failure_build_error (env : FirmwareServiceEnv) (params : BuildFlashFirmwareParams)
    (gitRepo : GitRepo) (a b c : String) (cr : CommandResult)
    (hcalls : (buildFlashFirmware env params gitRepo { locked := false }).trace.compileCalls = [(a, b, c)])
    (hc : env.compile a b c = .ok cr) (hf : cr.success = false) :
    (buildFlashFirmware env params gitRepo { locked := false }).result =
      { success := false, message := some cr.stderr, errorType := some .BuildError } ∧
    (buildFlashFirmware env params gitRepo { locked := false }).trace.flashCalls = [] := by
  rw [buildFlashFirmware_unlocked] at hcalls ⊢
  rcases hrun : runTry env params gitRepo with ⟨res, t⟩
  rw [hrun] at hcalls
  have ht : t.compileCalls = [(a, b, c)] := by
    rcases res with e | r <;> simpa using hcalls
  rcases runTry_compile env params gitRepo with hnone | ⟨fp, u, t0, h0c, h0f, heq⟩
  · rw [hrun] at hnone
    dsimp only at hnone
    rw [ht] at hnone
    simp at hnone
  · rw [hrun] at heq
    have hcc := (stageCompile_calls env params fp u t0).1
    rw [← heq] at hcc
    dsimp only at hcc
    obtain ⟨ha, hb2, hc2⟩ : a = params.target ∧ b = u ∧ c = fp := by
      rw [ht, h0c] at hcc
      simpa using hcc
    subst ha
    subst hb2
    subst hc2
    rw [stageCompile_compile_failed env params c b t0 cr hc hf] at heq
    simp only [Prod.mk.injEq] at heq
    obtain ⟨h1, h2⟩ := heq
    subst h1
    subst h2
    exact ⟨rfl, by simpa using h0f⟩

/-- Witness for C5: a backend whose compile step reports
`{success:false, stderr:"undefined reference"}`. -/
theorem compile_failure_build_error_witness :
    (buildFlashFirmware compileFailEnv localBuildParams repoA { locked := false }).result =
      { success := false, message := some "undefined reference",
        errorType := some .BuildError } ∧
    (buildFlashFirmware compileFailEnv localBuildParams repoA { locked := false }).trace.flashCalls = [] :=
  compile_failure_build_error compileFailEnv localBuildParams repoA "TARGET_A" "DEF" "/fw"
    { success := false, stderr := "undefined reference" } rfl rfl rfl

/-- C7 counterexample: a `Local`-source request still performs the
git-executable path lookup (it happens before the source switch). -/
theorem local_source_performs_git_lookup :
    localBuildParams.firmware.source = FirmwareSource.Local ∧
    (buildFlashFirmware happyEnv localBuildParams repoA { locked := false }).trace.gitLookups ≠ 0 := by
  constructor
  · rfl
  · decide

/-- C7 (amended): a `Local`-source request performs no checkout at all and
every compile invocation receives the given `localPath` as-is as the
firmware path (no existence check is modelled anywhere); the
git-executable lookup itself still occurs, as it precedes source
dispatch. -/
theorem local_source_no_resolution (env : FirmwareServiceEnv) (params : BuildFlashFirmwareParams)
    (gitRepo : GitRepo) (h : params.firmware.source = FirmwareSource.Local) :
    (buildFlashFirmware env params gitRepo { locked := false }).trace.checkoutCalls = [] ∧
    ∀ a b c, (a, b, c) ∈ (buildFlashFirmware env params gitRepo { locked := false }).trace.compileCalls →
      c = params.firmware.localPath := by
  rw [buildFlashFirmware_unlocked]
  have hl := runTry_local env params gitRepo h
  rcases hrun : runTry env params gitRepo with ⟨res, t⟩
  rw [hrun] at hl
  rcases res with e | r <;> exact hl

/-- Witness for C7 (amended) at the concrete `Local` request. -/
theorem local_source_no_resolution_witness :
    (buildFlashFirmware happyEnv localBuildParams repoA { locked := false }).trace.checkoutCalls = [] ∧
    ∀ a b c, (a, b, c) ∈
        (buildFlashFirmware happyEnv localBuildParams repoA { locked := false }).trace.compileCalls →
      c = localBuildParams.firmware.localPath :=
  local_source_no_resolution happyEnv localBuildParams repoA rfl

theorem parseTargets_length (tables : DeviceEnumTables) (l : List RawTarget)
    (r : List Target) (h : parseTargets tables l = .ok r) : r.length = l.length := by
  induction l generalizing r with
  | nil =>
    simp only [parseTargets, Except.ok.injEq] at h
    rw [← h]
    rfl
  | cons a l ih =>
    unfold parseTargets at h
    split at h
    · simp at h
    · split at h
      · simp at h
      · rename_i ts hts
        simp only [Except.ok.injEq] at h
        rw [← h]
        simp [ih ts hts]

theorem parseUserDefineKeys_length (tables : DeviceEnumTables) (l : List String)
    (r : List UserDefineKey) (h : parseUserDefineKeys tables l = .ok r) :
    r.length = l.length := by
  induction l generalizing r with
  | nil =>
    simp only [parseUserDefineKeys, Except.ok.injEq] at h
    rw [← h]
    rfl
  | cons a l ih =>
    unfold parseUserDefineKeys at h
    split at h
    · simp at h
    · split at h
      · simp at h
      · rename_i ks hks
        simp only [Except.ok.injEq] at h
        rw [← h]
        simp [ih ks hks]

theorem parseDevice_ok (tables : DeviceEnumTables) (v : RawDevice) (d : Device)
    (h : parseDevice tables v = .ok d) :
    v.name ≠ "" ∧ v.category ≠ "" ∧ 1 ≤ v.targets.length ∧ 1 ≤ v.userDefines.length ∧
    d.targets.length = v.targets.length ∧ d.userDefines.length = v.userDefines.length := by
  unfold parseDevice at h
  split at h
  · simp at h
  · rename_i hname
    split at h
    · simp at h
    · rename_i hcat
      split at h
      · simp at h
      · rename_i htl
        split at h
        · simp at h
        · rename_i hul
          split at h
          · simp at h
          · rename_i tg htg
            split at h
            · simp at h
            · rename_i ud hud
              split at h
              · simp at h
              · simp only [Except.ok.injEq] at h
                rw [← h]
                refine ⟨hname, hcat, ?_, ?_, ?_, ?_⟩
                · omega
                · omega
                · exact parseTargets_length tables v.targets tg htg
                · exact parseUserDefineKeys_length tables v.userDefines ud hud

theorem parseDeviceEntry_ok (tables : DeviceEnumTables) (v : RawDevice) (d : Device)
    (h : parseDeviceEntry tables v = .ok d) : parseDevice tables v = .ok d := by
  unfold parseDeviceEntry at h
  split at h
  · simp at h
  · rename_i d1 hd1
    simp only [Except.ok.injEq] at h
    rw [← h]
    exact hd1

/-- C9: a catalog the loader returns is complete (one parsed device per
raw entry — never a partial load) and every loaded device has at least
one target and at least one supported user-define key; every raw entry in
a returned catalog had a name, a category, non-empty target and define
lists, and parsed cleanly — so any malformed entry forces the whole load
to throw. -/
theorem loadDevices_catalog_invariant (tables : DeviceEnumTables) (raws : List RawDevice)
    (ds : List Device) (h : loadDevices tables raws = .ok ds) :
    ds.length = raws.length ∧
    (∀ d ∈ ds, 1 ≤ d.targets.length ∧ 1 ≤ d.userDefines.length) ∧
    (∀ v ∈ raws, v.name ≠ "" ∧ v.category ≠ "" ∧ 1 ≤ v.targets.length ∧
      1 ≤ v.userDefines.length ∧ ∃ d0, parseDeviceEntry tables v = .ok d0) := by
  induction raws generalizing ds with
  | nil =>
    simp only [loadDevices, Except.ok.injEq] at h
    rw [← h]
    exact ⟨rfl, by simp, by simp⟩
  | cons v raws ih =>
    unfold loadDevices at h
    split at h
    · simp at h
    · rename_i d0 hd0
      split at h
      · simp at h
      · rename_i ds0 hds0
        simp only [Except.ok.injEq] at h
        obtain ⟨hlen, hall, hraw⟩ := ih ds0 hds0
        obtain ⟨hn, hc, ht1, hu1, hdt, hdu⟩ :=
          parseDevice_ok tables v d0 (parseDeviceEntry_ok tables v d0 hd0)
        rw [← h]
        refine ⟨by simp [hlen], ?_, ?_⟩
        · intro d hd
          rcases List.mem_cons.mp hd with hd | hd
          · subst hd
            exact ⟨by omega, by omega⟩
          · exact hall d hd
        · intro v2 hv
          rcases List.mem_cons.mp hv with hv | hv
          · subst hv
            exact ⟨hn, hc, ht1, hu1, d0, hd0⟩
          · exact hraw v2 hv

/-- Witness for C9: a one-entry catalog that loads successfully. -/
theorem loadDevices_catalog_invariant_witness :
    [deviceA].length = [rawDeviceA].length ∧
    (∀ d ∈ [deviceA], 1 ≤ d.targets.length ∧ 1 ≤ d.userDefines.length) ∧
    (∀ v ∈ [rawDeviceA], v.name ≠ "" ∧ v.category ≠ "" ∧ 1 ≤ v.targets.length ∧
      1 ≤ v.userDefines.length ∧ ∃ d0, parseDeviceEntry tablesA v = .ok d0) :=
  loadDevices_catalog_invariant tablesA [rawDeviceA] [deviceA] rfl

end ELRS
